import Mathlib

/-!
Verification of `bids/modeling/auto_model.py`.

The module builds, for each task of a BIDS layout, a default hierarchical
statistical model: a run-level node with one regressor per discovered
trial type, optional one-vs-rest contrasts, and passthrough aggregation
nodes at session, subject and dataset level.

The Python dictionaries are embedded as Lean structures (a missing key is
an `Option` that is `none`), floating point weights as rationals, numpy's
`unique` as an insertion sort that drops duplicates, and the exception
flow (`KeyError` from a dict subscript, the caught `ZeroDivisionError`)
as `Except` values and an explicit guard.
-/

/-- Modelled from the spec: a run-level variable node as returned by the
`load_variables` collaborator (which is not part of this module).  Its
`variables` dictionary (embedded as the field `vars`, since `variables`
is reserved in Lean) maps a variable name to the sequence of observed
values of that variable; for `trial_type` these are the string labels of
the run's events. -/
structure RunNode where
  vars : List (String × List String)
deriving Repr, DecidableEq

/-- Modelled from the spec: the narrow read interface of the `BIDSLayout`
collaborator.  `rootName` is `layout._root.name`, `tasks` is
`layout.entities['task'].unique()`, `sessions` and `subjects` are
`layout.get_sessions()` / `layout.get_subjects()`, and `load_vars task sl`
is `load_variables(layout, task=task, levels=['run'], scan_length=sl)`. -/
structure Layout where
  rootName : String
  tasks : List String
  sessions : List String
  subjects : List String
  load_vars : String → Option Nat → List RunNode

/-- One contrast dictionary
`OrderedDict(Name=…, ConditionList=…, Weights=…, Test=…)`.
Numeric weights are modelled as rationals. -/
structure Contrast where
  Name : String
  ConditionList : List String
  Weights : List ℚ
  Test : String
deriving Repr, DecidableEq

/-- The `HRF` sub-dictionary of a run model; its `Parameters` dictionary is
kept as an association list. -/
structure HRFSpec where
  Variables : List String
  Model : String
  Parameters : List (String × ℚ)
deriving Repr, DecidableEq

/-- The fixed double-gamma parameters of the run-level HRF. -/
def hrfParameters : List (String × ℚ) :=
  [("PeakDelay", 3), ("PeakDispersion", 6), ("UndershootDelay", 10),
   ("UndershootDispersion", 12), ("PeakUndershootRatio", 1/5)]

/-- The `Model` sub-dictionary of a node (`{'Type': …, 'X': …}` plus the
optional `HRF` entry).  The dictionary key `Type` is a reserved word in
Lean and is embedded as the field `ModelType`. -/
structure NodeModel where
  ModelType : String
  X : List String
  HRF : Option HRFSpec
deriving Repr, DecidableEq

/-- The `Transformations` dictionary of the run node: a transformer name
and a list of instructions, each an `(Name, Input)` pair. -/
structure TransformationsSpec where
  Transformer : String
  Instructions : List (String × String)
deriving Repr, DecidableEq

/-- One node dictionary of the model.  Keys that are absent in some nodes
(`Transformations`, `Contrasts`) are `Option`s. -/
structure ModelNode where
  Level : String
  Name : String
  GroupBy : List String
  Transformations : Option TransformationsSpec
  Model : NodeModel
  Contrasts : Option (List Contrast)
deriving Repr, DecidableEq

/-- One task's model dictionary.  The `Input` dictionary `{"task": [t]}`
is embedded as the field `InputTask`. -/
structure TaskModel where
  Name : String
  Description : String
  BIDSModelVersion : String
  InputTask : List String
  Nodes : List ModelNode
deriving Repr, DecidableEq

/-- Exception-propagating map: the loop body of `auto_model` over the
tasks.  The first raised exception aborts the whole call, as an uncaught
Python exception does. -/
def mapExcept {α β ε : Type} (f : α → Except ε β) : List α → Except ε (List β)
  | [] => .ok []
  | x :: xs =>
    match f x with
    | .error e => .error e
    | .ok y =>
      match mapExcept f xs with
      | .error e => .error e
      | .ok ys => .ok (y :: ys)

/-- Dictionary lookup in a run node's `variables`: `n.variables[name]`
yields `none` where Python would raise `KeyError`. -/
def lookupVar (n : RunNode) (name : String) : Option (List String) :=
  (n.vars.find? (fun p => p.1 = name)).map Prod.snd

/-- The event-collection loop of `auto_model`:
`for n in run_nodes.nodes: evs.extend(n.variables['trial_type'].values.values)`.
A run node without a `trial_type` variable raises `KeyError`. -/
def collectEvs : List RunNode → Except String (List String)
  | [] => .ok []
  | n :: rest =>
    match lookupVar n "trial_type" with
    | none => .error "KeyError: trial_type"
    | some vs =>
      match collectEvs rest with
      | .error e => .error e
      | .ok acc => .ok (vs ++ acc)

/-- Lexicographic strict comparison of character lists, written with
structural recursion so that it evaluates; proved equivalent to the
library order on strings below. -/
def listLtb : List Char → List Char → Bool
  | _, [] => false
  | [], _ :: _ => true
  | a :: as, b :: bs =>
    if a < b then true
    else if b < a then false
    else listLtb as bs

/-- Lexicographic strict comparison of strings (on their character
data). -/
def strLtb (s t : String) : Bool := listLtb s.data t.data

/-- Insert a string into a strictly sorted list, keeping it strictly
sorted (duplicates are dropped). -/
def insertUnique (x : String) : List String → List String
  | [] => [x]
  | y :: ys =>
    if x = y then y :: ys
    else if strLtb x y then x :: y :: ys
    else y :: insertUnique x ys

/-- `np.unique`: the deduplicated, lexicographically sorted sequence of
the input values. -/
def npUnique (xs : List String) : List String :=
  xs.foldr insertUnique []

/-- `["trial_type." + tt for tt in trial_types]`. -/
def trial_type_factors (trial_types : List String) : List String :=
  trial_types.map (fun tt => "trial_type." ++ tt)

/-- The weight vector of one one-vs-rest contrast:
`weights = np.ones(len(trial_types))` followed by
`weights[trial_types != tt] = -1.0 / (len(trial_types) - 1)` inside a
`try/except ZeroDivisionError: pass`.  The guard is the exception branch:
when `len(trial_types) - 1 == 0` the division raises and the assignment
is skipped, so the weights keep their initialised value `1.0`. -/
def contrast_weights (trial_types : List String) (tt : String) : List ℚ :=
  if (trial_types.length : ℤ) - 1 = 0 then
    trial_types.map (fun _ => (1 : ℚ))
  else
    trial_types.map
      (fun s => if s = tt then (1 : ℚ)
                else -1 / ((trial_types.length : ℚ) - 1))

/-- The contrast dictionary built for one trial type `tt` in the
one-vs-rest loop of `auto_model`. -/
def run_contrast (trial_types : List String) (tt : String) : Contrast :=
  { Name := if 1 < trial_types.length then "run_" ++ tt ++ "_vs_others"
            else "run_" ++ tt,
    ConditionList := trial_type_factors trial_types,
    Weights := contrast_weights trial_types tt,
    Test := "t" }

/-- The full run-level contrast list: one contrast per trial type, in
order. -/
def run_contrasts (trial_types : List String) : List Contrast :=
  trial_types.map (run_contrast trial_types)

/-- The run-level node of `auto_model`, with its fixed `Factor`
transformation, GLM model, HRF, and (when `one_vs_rest` is set) the
one-vs-rest contrasts. -/
def build_run_node (one_vs_rest : Bool) (trial_types : List String) : ModelNode :=
  { Level := "Run",
    Name := "Run",
    GroupBy := ["run", "subject"],
    Transformations := some
      { Transformer := "pybids-transforms-v1",
        Instructions := [("Factor", "trial_type")] },
    Model :=
      { ModelType := "glm",
        X := trial_type_factors trial_types,
        HRF := some
          { Variables := trial_type_factors trial_types,
            Model := "DoubleGamma",
            Parameters := hrfParameters } },
    Contrasts := if one_vs_rest then some (run_contrasts trial_types) else none }

/-- Python's `str.lower()` on the (ASCII) level names, evaluated
characterwise over the string's character data. -/
def strToLower (s : String) : String := ⟨s.data.map Char.toLower⟩

/-- The `gb_dict` dictionary of `_make_passthrough_contrast`; `none`
stands for the `KeyError` of an unknown level (never reached by
`auto_model`). -/
def gbDict (level : String) : Option (List String) :=
  if level = "Subject" then some ["subject", "contrast"]
  else if level = "Session" then some ["session", "contrast"]
  else if level = "Dataset" then some ["contrast"]
  else none

/-- `_make_passthrough_contrast(level, contrast_names, model_type, test)`:
a passthrough node whose model regressors are the inherited contrast
names, with one trivial identity contrast per inherited name.  In the
source `model_type` defaults to `'glm'` and `test` to `"t"`; the callers
in `auto_model` pass `"meta"` at Session and Subject level and the
defaults otherwise. -/
def _make_passthrough_contrast (level : String) (contrast_names : List String)
    (model_type : String) (test : String) : ModelNode :=
  { Level := level,
    Name := level,
    GroupBy := (gbDict level).getD [],
    Transformations := none,
    Model := { ModelType := model_type, X := contrast_names, HRF := none },
    Contrasts := some (contrast_names.map (fun cn =>
      { Name := strToLower level ++ "_" ++ cn,
        ConditionList := [cn],
        Weights := [1],
        Test := test })) }

/-- `[cc["Name"] for cc in nodes[-1]["Contrasts"]]`: the contrast names of
the last node of the list (within `auto_model` the last node always
carries a `Contrasts` key when this is evaluated). -/
def contrastNames (nodes : List ModelNode) : List String :=
  (((nodes.getLast?).bind ModelNode.Contrasts).getD []).map Contrast.Name

/-- Append the Session passthrough node when the layout has more than one
session. -/
def append_session (layout : Layout) (nodes : List ModelNode) : List ModelNode :=
  if 1 < layout.sessions.length then
    nodes ++ [_make_passthrough_contrast "Session" (contrastNames nodes) "meta" "t"]
  else nodes

/-- Append the Subject passthrough node when the layout has more than one
subject. -/
def append_subject (layout : Layout) (nodes : List ModelNode) : List ModelNode :=
  if 1 < layout.subjects.length then
    nodes ++ [_make_passthrough_contrast "Subject" (contrastNames nodes) "meta" "t"]
  else nodes

/-- Unconditionally append the final Dataset passthrough node. -/
def append_dataset (nodes : List ModelNode) : List ModelNode :=
  nodes ++ [_make_passthrough_contrast "Dataset" (contrastNames nodes) "glm" "t"]

/-- The node list of one task's model: the run node, then (only when
`one_vs_rest` is set) the optional Session and Subject passthrough nodes
and the final Dataset node. -/
def build_nodes (layout : Layout) (one_vs_rest : Bool)
    (trial_types : List String) : List ModelNode :=
  if one_vs_rest then
    append_dataset (append_subject layout
      (append_session layout [build_run_node one_vs_rest trial_types]))
  else [build_run_node one_vs_rest trial_types]

/-- The body of the task loop of `auto_model`: collect the events of the
task's run nodes (a `KeyError` aborts the call), discover the trial types
with `np.unique`, and assemble the task's model dictionary. -/
def build_task_model (layout : Layout) (scan_length : Option Nat)
    (one_vs_rest : Bool) (task_name : String) : Except String TaskModel :=
  match collectEvs (layout.load_vars task_name scan_length) with
  | .error e => .error e
  | .ok evs =>
    .ok { Name := layout.rootName ++ "_" ++ task_name,
          Description := "Autogenerated model for the " ++ task_name
            ++ " task from " ++ layout.rootName,
          BIDSModelVersion := "1.0.0",
          InputTask := [task_name],
          Nodes := build_nodes layout one_vs_rest (npUnique evs) }

/-- `auto_model(layout, scan_length, one_vs_rest)`: one task model per
task, in the layout's task enumeration order; an exception raised while
processing any task propagates to the caller. -/
def auto_model (layout : Layout) (scan_length : Option Nat)
    (one_vs_rest : Bool) : Except String (List TaskModel) :=
  mapExcept (build_task_model layout scan_length one_vs_rest) layout.tasks

/-- Boolean success test for an `Except` value (used to state decidable
hypotheses about the collaborator's data). -/
def exceptOk {ε β : Type} : Except ε β → Bool
  | .ok _ => true
  | .error _ => false

/-! ### Helper lemmas -/

theorem listLtb_iff : ∀ cs ds : List Char, listLtb cs ds = true ↔ cs < ds := by
  intro cs
  induction cs with
  | nil =>
    intro ds
    cases ds with
    | nil =>
      constructor
      · intro h; exact Bool.noConfusion h
      · intro h; nomatch h
    | cons b bs =>
      exact ⟨fun _ => List.Lex.nil, fun _ => rfl⟩
  | cons a as ih =>
    intro ds
    cases ds with
    | nil =>
      constructor
      · intro h; exact Bool.noConfusion h
      · intro h; nomatch h
    | cons b bs =>
      by_cases hab : a < b
      · simp only [listLtb, if_pos hab]
        exact ⟨fun _ => List.Lex.rel hab, fun _ => trivial⟩
      · by_cases hba : b < a
        · simp only [listLtb, if_neg hab, if_pos hba]
          constructor
          · intro h; exact Bool.noConfusion h
          · intro h
            cases h with
            | cons h3 => exact absurd hba (lt_irrefl a)
            | rel h1 => exact absurd h1 hab
        · have hq : a = b := le_antisymm (not_lt.mp hba) (not_lt.mp hab)
          subst hq
          simp only [listLtb, if_neg hab]
          rw [ih bs]
          constructor
          · intro h; exact List.Lex.cons h
          · intro h
            cases h with
            | cons h3 => exact h3
            | rel h1 => exact absurd h1 hab

theorem strLtb_iff (s t : String) : strLtb s t = true ↔ s < t := by
  rw [String.lt_iff_toList_lt]
  exact listLtb_iff s.data t.data

theorem mem_insertUnique {x b : String} :
    ∀ {l : List String}, b ∈ insertUnique x l ↔ b = x ∨ b ∈ l := by
  intro l
  induction l with
  | nil => simp [insertUnique]
  | cons y ys ih =>
    by_cases hxy : x = y
    · subst hxy
      have h0 : insertUnique x (x :: ys) = x :: ys := by
        simp [insertUnique]
      rw [h0, List.mem_cons]
      tauto
    · by_cases hlt : strLtb x y = true
      · simp only [insertUnique, if_neg hxy, if_pos hlt, List.mem_cons]
      · simp only [insertUnique, if_neg hxy, if_neg hlt, List.mem_cons, ih]
        tauto

theorem sorted_insertUnique (x : String) {l : List String}
    (h : l.Sorted (· < ·)) : (insertUnique x l).Sorted (· < ·) := by
  induction l with
  | nil => simp [insertUnique]
  | cons y ys ih =>
    rw [List.sorted_cons] at h
    obtain ⟨hall, hys⟩ := h
    by_cases hxy : x = y
    · subst hxy
      simp only [insertUnique, if_pos rfl]
      exact List.sorted_cons.mpr ⟨hall, hys⟩
    · by_cases hlt : strLtb x y = true
      · have hxy' : x < y := (strLtb_iff x y).mp hlt
        simp only [insertUnique, if_neg hxy, if_pos hlt]
        refine List.sorted_cons.mpr ⟨?_, List.sorted_cons.mpr ⟨hall, hys⟩⟩
        intro b hb
        rcases List.mem_cons.mp hb with rfl | hb'
        · exact hxy'
        · exact lt_trans hxy' (hall b hb')
      · have hnlt : ¬ x < y := fun h' => hlt ((strLtb_iff x y).mpr h')
        have hyx : y < x := lt_of_le_of_ne (not_lt.mp hnlt) (fun h' => hxy h'.symm)
        simp only [insertUnique, if_neg hxy, if_neg hlt]
        refine List.sorted_cons.mpr ⟨?_, ih hys⟩
        intro b hb
        rcases mem_insertUnique.mp hb with rfl | hb'
        · exact hyx
        · exact hall b hb'

theorem npUnique_sorted (xs : List String) : (npUnique xs).Sorted (· < ·) := by
  induction xs with
  | nil => simp [npUnique]
  | cons x xs ih => exact sorted_insertUnique x ih

theorem npUnique_nodup (xs : List String) : (npUnique xs).Nodup :=
  (npUnique_sorted xs).nodup

theorem mem_npUnique {b : String} :
    ∀ {xs : List String}, b ∈ npUnique xs ↔ b ∈ xs := by
  intro xs
  induction xs with
  | nil => simp [npUnique]
  | cons x xs ih =>
    show b ∈ insertUnique x (npUnique xs) ↔ _
    rw [mem_insertUnique, ih, List.mem_cons]

theorem sum_map_const_q (l : List String) (y : ℚ) :
    (l.map (fun _ => y)).sum = l.length * y := by
  induction l with
  | nil => simp
  | cons a as ih =>
    simp only [List.map_cons, List.sum_cons, ih, List.length_cons]
    push_cast
    ring

theorem sum_map_ite_q (l : List String) (a : String) (x y : ℚ)
    (hnd : l.Nodup) (ha : a ∈ l) :
    (l.map (fun s => if s = a then x else y)).sum
      = x + ((l.length : ℚ) - 1) * y := by
  induction l with
  | nil => cases ha
  | cons b bs ih =>
    rw [List.nodup_cons] at hnd
    obtain ⟨hb, hbs⟩ := hnd
    rcases List.mem_cons.mp ha with rfl | ha'
    · have h1 : bs.map (fun s => if s = a then x else y)
          = bs.map (fun _ => y) := by
        refine List.map_congr_left ?_
        intro s hs
        have hsa : ¬ s = a := fun h => hb (h ▸ hs)
        simp [hsa]
      simp only [List.map_cons, if_pos rfl, List.sum_cons, h1, sum_map_const_q,
        List.length_cons]
      push_cast
      ring
    · have hba : ¬ b = a := fun h => hb (h ▸ ha')
      simp only [List.map_cons, if_neg hba, List.sum_cons, ih hbs ha',
        List.length_cons]
      push_cast
      ring

theorem mapExcept_ok_of_ok {α β : Type} (f : α → Except String β) :
    ∀ (xs : List α), (∀ x ∈ xs, exceptOk (f x) = true) →
      ∃ ys, mapExcept f xs = .ok ys ∧ ∀ y ∈ ys, ∃ x ∈ xs, f x = .ok y := by
  intro xs
  induction xs with
  | nil => exact fun _ => ⟨[], rfl, by simp⟩
  | cons x xs ih =>
    intro h
    have hx := h x (by simp)
    cases hfx : f x with
    | error e => rw [hfx] at hx; simp [exceptOk] at hx
    | ok y =>
      obtain ⟨ys, hys, hmem⟩ := ih (fun z hz => h z (by simp [hz]))
      refine ⟨y :: ys, by simp [mapExcept, hfx, hys], ?_⟩
      intro z hz
      rcases List.mem_cons.mp hz with rfl | hz'
      · exact ⟨x, by simp, hfx⟩
      · obtain ⟨w, hw, hfw⟩ := hmem z hz'
        exact ⟨w, by simp [hw], hfw⟩

theorem mapExcept_error_of_mem {α β : Type} (f : α → Except String β) :
    ∀ (xs : List α) (x : α), x ∈ xs → (∀ y, ¬ f x = .ok y) →
      ∃ e, mapExcept f xs = .error e := by
  intro xs
  induction xs with
  | nil => intro x hx; cases hx
  | cons z zs ih =>
    intro x hx hbad
    cases hfz : f z with
    | error e => exact ⟨e, by simp [mapExcept, hfz]⟩
    | ok y =>
      rcases List.mem_cons.mp hx with rfl | hx'
      · exact absurd hfz (hbad y)
      · obtain ⟨e, he⟩ := ih x hx' hbad
        exact ⟨e, by simp [mapExcept, hfz, he]⟩

theorem collectEvs_error_of_missing :
    ∀ (ns : List RunNode), (∃ n ∈ ns, lookupVar n "trial_type" = none) →
      collectEvs ns = .error "KeyError: trial_type" := by
  intro ns
  induction ns with
  | nil => rintro ⟨n, hn, -⟩; cases hn
  | cons m ms ih =>
    rintro ⟨n, hn, hmiss⟩
    cases hm : lookupVar m "trial_type" with
    | none => simp [collectEvs, hm]
    | some vs =>
      rcases List.mem_cons.mp hn with rfl | hn'
      · rw [hmiss] at hm; cases hm
      · have he := ih ⟨n, hn', hmiss⟩
        simp [collectEvs, hm, he]

theorem build_task_model_ok {layout : Layout} {sl : Option Nat} {ovr : Bool}
    {task : String} {evs : List String}
    (hevs : collectEvs (layout.load_vars task sl) = .ok evs) :
    build_task_model layout sl ovr task = .ok
      { Name := layout.rootName ++ "_" ++ task,
        Description := "Autogenerated model for the " ++ task
          ++ " task from " ++ layout.rootName,
        BIDSModelVersion := "1.0.0",
        InputTask := [task],
        Nodes := build_nodes layout ovr (npUnique evs) } := by
  unfold build_task_model
  rw [hevs]

theorem build_task_model_ok_inv {layout : Layout} {sl : Option Nat}
    {ovr : Bool} {task : String} {tm : TaskModel}
    (h : build_task_model layout sl ovr task = .ok tm) :
    ∃ evs, collectEvs (layout.load_vars task sl) = .ok evs ∧
      tm.Nodes = build_nodes layout ovr (npUnique evs) := by
  revert h
  unfold build_task_model
  cases hc : collectEvs (layout.load_vars task sl) with
  | error e => intro h; cases h
  | ok evs =>
    intro h
    injection h with h2
    exact ⟨evs, rfl, by rw [← h2]⟩

theorem build_task_model_error {layout : Layout} {sl : Option Nat}
    {ovr : Bool} {task : String}
    (h : collectEvs (layout.load_vars task sl) = .error "KeyError: trial_type") :
    build_task_model layout sl ovr task = .error "KeyError: trial_type" := by
  unfold build_task_model
  rw [h]

theorem passthrough_Level (level : String) (cns : List String) (mt test : String) :
    (_make_passthrough_contrast level cns mt test).Level = level := rfl

theorem passthrough_ModelType (level : String) (cns : List String) (mt test : String) :
    (_make_passthrough_contrast level cns mt test).Model.ModelType = mt := rfl

theorem passthrough_X (level : String) (cns : List String) (mt test : String) :
    (_make_passthrough_contrast level cns mt test).Model.X = cns := rfl

theorem run_node_Level (ovr : Bool) (tts : List String) :
    (build_run_node ovr tts).Level = "Run" := rfl

theorem build_nodes_false (layout : Layout) (tts : List String) :
    build_nodes layout false tts = [build_run_node false tts] := rfl

theorem build_nodes_true_eq (layout : Layout) (tts : List String) :
    build_nodes layout true tts =
      append_subject layout (append_session layout [build_run_node true tts]) ++
        [_make_passthrough_contrast "Dataset"
          (contrastNames
            (append_subject layout (append_session layout [build_run_node true tts])))
          "glm" "t"] := rfl

theorem mem_append_session {layout : Layout} {ns : List ModelNode} {nd : ModelNode}
    (h : nd ∈ append_session layout ns) :
    nd ∈ ns ∨ ∃ cns, nd = _make_passthrough_contrast "Session" cns "meta" "t" := by
  unfold append_session at h
  by_cases hs : 1 < layout.sessions.length
  · rw [if_pos hs] at h
    rcases List.mem_append.mp h with h1 | h2
    · exact Or.inl h1
    · exact Or.inr ⟨_, by simpa using h2⟩
  · rw [if_neg hs] at h
    exact Or.inl h

theorem mem_append_subject {layout : Layout} {ns : List ModelNode} {nd : ModelNode}
    (h : nd ∈ append_subject layout ns) :
    nd ∈ ns ∨ ∃ cns, nd = _make_passthrough_contrast "Subject" cns "meta" "t" := by
  unfold append_subject at h
  by_cases hb : 1 < layout.subjects.length
  · rw [if_pos hb] at h
    rcases List.mem_append.mp h with h1 | h2
    · exact Or.inl h1
    · exact Or.inr ⟨_, by simpa using h2⟩
  · rw [if_neg hb] at h
    exact Or.inl h

theorem mem_build_nodes_true {layout : Layout} {tts : List String} {nd : ModelNode}
    (h : nd ∈ build_nodes layout true tts) :
    nd = build_run_node true tts ∨
    (∃ cns, nd = _make_passthrough_contrast "Session" cns "meta" "t") ∨
    (∃ cns, nd = _make_passthrough_contrast "Subject" cns "meta" "t") ∨
    (∃ cns, nd = _make_passthrough_contrast "Dataset" cns "glm" "t") := by
  rw [build_nodes_true_eq] at h
  rcases List.mem_append.mp h with h1 | h2
  · rcases mem_append_subject h1 with h3 | h4
    · rcases mem_append_session h3 with h5 | h6
      · left
        simpa using h5
      · right; left; exact h6
    · right; right; left; exact h4
  · right; right; right
    exact ⟨_, by simpa using h2⟩

theorem exists_append_session (layout : Layout) (ns : List ModelNode) :
    ∃ t, append_session layout ns = ns ++ t := by
  unfold append_session
  by_cases hs : 1 < layout.sessions.length
  · rw [if_pos hs]; exact ⟨_, rfl⟩
  · rw [if_neg hs]; exact ⟨[], (List.append_nil ns).symm⟩

theorem exists_append_subject (layout : Layout) (ns : List ModelNode) :
    ∃ t, append_subject layout ns = ns ++ t := by
  unfold append_subject
  by_cases hb : 1 < layout.subjects.length
  · rw [if_pos hb]; exact ⟨_, rfl⟩
  · rw [if_neg hb]; exact ⟨[], (List.append_nil ns).symm⟩

theorem build_nodes_true_cons (layout : Layout) (tts : List String) :
    ∃ rest, build_nodes layout true tts = build_run_node true tts :: rest := by
  rw [build_nodes_true_eq]
  obtain ⟨t1, h1⟩ := exists_append_session layout [build_run_node true tts]
  obtain ⟨t2, h2⟩ := exists_append_subject layout
    (append_session layout [build_run_node true tts])
  rw [h2, h1]
  simp only [List.cons_append, List.nil_append, List.append_assoc]
  exact ⟨_, rfl⟩

theorem build_nodes_cons (layout : Layout) (ovr : Bool) (tts : List String) :
    ∃ rest, build_nodes layout ovr tts = build_run_node ovr tts :: rest := by
  cases ovr with
  | false => exact ⟨[], rfl⟩
  | true => exact build_nodes_true_cons layout tts

theorem map_Level_append_session (layout : Layout) (ns : List ModelNode) :
    (append_session layout ns).map ModelNode.Level =
      ns.map ModelNode.Level ++
        (if 1 < layout.sessions.length then ["Session"] else []) := by
  unfold append_session
  by_cases hs : 1 < layout.sessions.length
  · rw [if_pos hs, if_pos hs]
    simp [passthrough_Level]
  · rw [if_neg hs, if_neg hs]
    simp

theorem map_Level_append_subject (layout : Layout) (ns : List ModelNode) :
    (append_subject layout ns).map ModelNode.Level =
      ns.map ModelNode.Level ++
        (if 1 < layout.subjects.length then ["Subject"] else []) := by
  unfold append_subject
  by_cases hb : 1 < layout.subjects.length
  · rw [if_pos hb, if_pos hb]
    simp [passthrough_Level]
  · rw [if_neg hb, if_neg hb]
    simp

theorem passthrough_Contrasts (level : String) (cns : List String) (mt test : String) :
    (_make_passthrough_contrast level cns mt test).Contrasts =
      some (cns.map (fun cn =>
        { Name := strToLower level ++ "_" ++ cn, ConditionList := [cn],
          Weights := [1], Test := test })) := rfl

theorem length_contrast_weights (tts : List String) (tt : String) :
    (contrast_weights tts tt).length = tts.length := by
  unfold contrast_weights
  split <;> simp

theorem run_node_Contrasts_true (tts : List String) :
    (build_run_node true tts).Contrasts = some (run_contrasts tts) := rfl

theorem run_node_Contrasts_false (tts : List String) :
    (build_run_node false tts).Contrasts = none := rfl

theorem contrastNames_concat (ns : List ModelNode) (nd : ModelNode) :
    contrastNames (ns ++ [nd]) = ((nd.Contrasts).getD []).map Contrast.Name := by
  unfold contrastNames
  rw [List.getLast?_concat]
  rfl

theorem contrastNames_append_session_empty (layout : Layout) (ns : List ModelNode)
    (h : contrastNames ns = []) :
    contrastNames (append_session layout ns) = [] := by
  unfold append_session
  by_cases hs : 1 < layout.sessions.length
  · rw [if_pos hs, contrastNames_concat, h]
    rfl
  · rw [if_neg hs]
    exact h

theorem contrastNames_append_subject_empty (layout : Layout) (ns : List ModelNode)
    (h : contrastNames ns = []) :
    contrastNames (append_subject layout ns) = [] := by
  unfold append_subject
  by_cases hb : 1 < layout.subjects.length
  · rw [if_pos hb, contrastNames_concat, h]
    rfl
  · rw [if_neg hb]
    exact h

theorem auto_model_ok_nodes (layout : Layout) (sl : Option Nat) (ovr : Bool)
    (h : ∀ t ∈ layout.tasks, exceptOk (collectEvs (layout.load_vars t sl)) = true) :
    ∃ tms, auto_model layout sl ovr = .ok tms ∧
      ∀ tm ∈ tms, ∃ evs, tm.Nodes = build_nodes layout ovr (npUnique evs) := by
  have hex : ∀ t ∈ layout.tasks,
      exceptOk (build_task_model layout sl ovr t) = true := by
    intro t ht
    have h2 := h t ht
    cases hc : collectEvs (layout.load_vars t sl) with
    | error e => rw [hc] at h2; simp [exceptOk] at h2
    | ok evs => rw [build_task_model_ok hc]; rfl
  obtain ⟨tms, htms, hmem⟩ := mapExcept_ok_of_ok _ layout.tasks hex
  refine ⟨tms, htms, fun tm htm => ?_⟩
  obtain ⟨t, ht, hok⟩ := hmem tm htm
  obtain ⟨evs, hevs, hnodes⟩ := build_task_model_ok_inv hok
  exact ⟨evs, hnodes⟩

/-! ### Concrete layouts used by the witnesses -/

/-- A single-task, single-session, single-subject layout whose only run
has events `stop, go, go`. -/
def egLayout : Layout :=
  { rootName := "ds000117",
    tasks := ["rest"],
    sessions := ["01"],
    subjects := ["01"],
    load_vars := fun _ _ => [{ vars := [("trial_type", ["stop", "go", "go"])] }] }

/-- A layout with two sessions and two subjects. -/
def egLayoutMulti : Layout :=
  { rootName := "ds000117",
    tasks := ["rest"],
    sessions := ["01", "02"],
    subjects := ["s1", "s2"],
    load_vars := fun _ _ => [{ vars := [("trial_type", ["stop", "go", "go"])] }] }

/-- A layout whose only run has a `trial_type` variable with no values, so
no trial type is discovered. -/
def egLayoutEmptyEvents : Layout :=
  { rootName := "ds",
    tasks := ["rest"],
    sessions := ["01"],
    subjects := ["01"],
    load_vars := fun _ _ => [{ vars := [("trial_type", [])] }] }

/-- A layout whose only run has no `trial_type` variable at all. -/
def egLayoutMissing : Layout :=
  { rootName := "ds",
    tasks := ["rest"],
    sessions := ["01"],
    subjects := ["01"],
    load_vars := fun _ _ => [{ vars := [] }] }

/-! ### Claims -/

/-- C6: Every passthrough node has GroupBy `[session, contrast]` at
Session level, `[subject, contrast]` at Subject level and `[contrast]` at
Dataset level, and for each inherited contrast name `cn` it emits exactly
one contrast with Name `"<level-lowercase>_<cn>"`, ConditionList `[cn]`,
Weights `[1]` and Test `"t"`. -/
theorem C6_passthrough_shape (cns : List String) (mt : String) :
    ((_make_passthrough_contrast "Session" cns mt "t").GroupBy
        = ["session", "contrast"] ∧
      (_make_passthrough_contrast "Session" cns mt "t").Contrasts
        = some (cns.map (fun cn =>
            { Name := "session_" ++ cn, ConditionList := [cn],
              Weights := [1], Test := "t" }))) ∧
    ((_make_passthrough_contrast "Subject" cns mt "t").GroupBy
        = ["subject", "contrast"] ∧
      (_make_passthrough_contrast "Subject" cns mt "t").Contrasts
        = some (cns.map (fun cn =>
            { Name := "subject_" ++ cn, ConditionList := [cn],
              Weights := [1], Test := "t" }))) ∧
    ((_make_passthrough_contrast "Dataset" cns mt "t").GroupBy
        = ["contrast"] ∧
      (_make_passthrough_contrast "Dataset" cns mt "t").Contrasts
        = some (cns.map (fun cn =>
            { Name := "dataset_" ++ cn, ConditionList := [cn],
              Weights := [1], Test := "t" }))) := by
  refine ⟨⟨rfl, ?_⟩, ⟨rfl, ?_⟩, ⟨rfl, ?_⟩⟩
  · rw [passthrough_Contrasts]
    simp only [show strToLower "Session" ++ "_" = "session_" from rfl]
  · rw [passthrough_Contrasts]
    simp only [show strToLower "Subject" ++ "_" = "subject_" from rfl]
  · rw [passthrough_Contrasts]
    simp only [show strToLower "Dataset" ++ "_" = "dataset_" from rfl]

/-- C8: When `one_vs_rest` is false, every returned task model has
exactly one node, and that node is the Run node (the run-level node built
for the task's discovered trial types, with Level `"Run"`) and carries no
`Contrasts` key. -/
theorem C8_single_run_node (layout : Layout) (sl : Option Nat)
    (h : ∀ t ∈ layout.tasks, exceptOk (collectEvs (layout.load_vars t sl)) = true) :
    ∃ tms, auto_model layout sl false = .ok tms ∧
      ∀ tm ∈ tms, ∃ evs,
        tm.Nodes = [build_run_node false (npUnique evs)] ∧
        (build_run_node false (npUnique evs)).Level = "Run" ∧
        (build_run_node false (npUnique evs)).Contrasts = none := by
  obtain ⟨tms, htms, hch⟩ := auto_model_ok_nodes layout sl false h
  refine ⟨tms, htms, fun tm htm => ?_⟩
  obtain ⟨evs, hnodes⟩ := hch tm htm
  exact ⟨evs, by rw [hnodes, build_nodes_false], rfl, rfl⟩

/-- C8 witness at a concrete layout. -/
theorem C8_single_run_node_witness :
    (∀ t ∈ egLayout.tasks, exceptOk (collectEvs (egLayout.load_vars t none)) = true) ∧
    (∃ tms, auto_model egLayout none false = .ok tms ∧
      ∀ tm ∈ tms, ∃ evs,
        tm.Nodes = [build_run_node false (npUnique evs)] ∧
        (build_run_node false (npUnique evs)).Level = "Run" ∧
        (build_run_node false (npUnique evs)).Contrasts = none) :=
  ⟨by decide, C8_single_run_node egLayout none (by decide)⟩

/-- C5: For every contrast emitted anywhere in the output, at run level
and at every passthrough level, the `Weights` sequence has the same
length as the `ConditionList` sequence. -/
theorem C5_weights_length (layout : Layout) (sl : Option Nat) (ovr : Bool)
    (h : ∀ t ∈ layout.tasks, exceptOk (collectEvs (layout.load_vars t sl)) = true) :
    ∃ tms, auto_model layout sl ovr = .ok tms ∧
      ∀ tm ∈ tms, ∀ nd ∈ tm.Nodes, ∀ c ∈ nd.Contrasts.getD [],
        c.Weights.length = c.ConditionList.length := by
  obtain ⟨tms, htms, hch⟩ := auto_model_ok_nodes layout sl ovr h
  refine ⟨tms, htms, fun tm htm nd hnd c hc => ?_⟩
  obtain ⟨evs, hnodes⟩ := hch tm htm
  rw [hnodes] at hnd
  have hrun : ∀ b : Bool, c ∈ ((build_run_node b (npUnique evs)).Contrasts.getD []) →
      c.Weights.length = c.ConditionList.length := by
    intro b hcb
    cases b with
    | false => simp [run_node_Contrasts_false] at hcb
    | true =>
      rw [run_node_Contrasts_true] at hcb
      simp only [Option.getD_some] at hcb
      obtain ⟨tt, htt, rfl⟩ := List.mem_map.mp hcb
      show (contrast_weights (npUnique evs) tt).length
        = (trial_type_factors (npUnique evs)).length
      rw [length_contrast_weights]
      simp [trial_type_factors]
  have hpass : ∀ level cns mt test,
      c ∈ ((_make_passthrough_contrast level cns mt test).Contrasts.getD []) →
      c.Weights.length = c.ConditionList.length := by
    intro level cns mt test hcp
    rw [passthrough_Contrasts] at hcp
    simp only [Option.getD_some] at hcp
    obtain ⟨cn, hcn, rfl⟩ := List.mem_map.mp hcp
    rfl
  cases ovr with
  | false =>
    rw [build_nodes_false] at hnd
    rcases List.mem_singleton.mp hnd with rfl
    exact hrun false hc
  | true =>
    rcases mem_build_nodes_true hnd with rfl | ⟨cns, rfl⟩ | ⟨cns, rfl⟩ | ⟨cns, rfl⟩
    · exact hrun true hc
    · exact hpass _ _ _ _ hc
    · exact hpass _ _ _ _ hc
    · exact hpass _ _ _ _ hc

/-- C5 witness at a concrete layout. -/
theorem C5_weights_length_witness :
    (∀ t ∈ egLayout.tasks, exceptOk (collectEvs (egLayout.load_vars t none)) = true) ∧
    (∃ tms, auto_model egLayout none true = .ok tms ∧
      ∀ tm ∈ tms, ∀ nd ∈ tm.Nodes, ∀ c ∈ nd.Contrasts.getD [],
        c.Weights.length = c.ConditionList.length) :=
  ⟨by decide, C5_weights_length egLayout none true (by decide)⟩

/-- C7: In the one-vs-rest output, Session-level and Subject-level
passthrough nodes have Model.Type `"meta"`, while the Dataset-level node
has Model.Type `"glm"`. -/
theorem C7_model_types (layout : Layout) (sl : Option Nat)
    (h : ∀ t ∈ layout.tasks, exceptOk (collectEvs (layout.load_vars t sl)) = true) :
    ∃ tms, auto_model layout sl true = .ok tms ∧
      ∀ tm ∈ tms, ∀ nd ∈ tm.Nodes,
        ((nd.Level = "Session" ∨ nd.Level = "Subject") →
          nd.Model.ModelType = "meta") ∧
        (nd.Level = "Dataset" → nd.Model.ModelType = "glm") := by
  obtain ⟨tms, htms, hch⟩ := auto_model_ok_nodes layout sl true h
  refine ⟨tms, htms, fun tm htm nd hnd => ?_⟩
  obtain ⟨evs, hnodes⟩ := hch tm htm
  rw [hnodes] at hnd
  rcases mem_build_nodes_true hnd with rfl | ⟨cns, rfl⟩ | ⟨cns, rfl⟩ | ⟨cns, rfl⟩
  · refine ⟨?_, ?_⟩
    · rintro (hL | hL) <;> (rw [run_node_Level] at hL; exact absurd hL (by decide))
    · intro hL; rw [run_node_Level] at hL; exact absurd hL (by decide)
  · refine ⟨fun _ => rfl, ?_⟩
    intro hL; rw [passthrough_Level] at hL; exact absurd hL (by decide)
  · refine ⟨fun _ => rfl, ?_⟩
    intro hL; rw [passthrough_Level] at hL; exact absurd hL (by decide)
  · refine ⟨?_, fun _ => rfl⟩
    rintro (hL | hL) <;> (rw [passthrough_Level] at hL; exact absurd hL (by decide))

/-- C7 witness at a concrete layout with two sessions and two subjects. -/
theorem C7_model_types_witness :
    (∀ t ∈ egLayoutMulti.tasks,
      exceptOk (collectEvs (egLayoutMulti.load_vars t none)) = true) ∧
    (∃ tms, auto_model egLayoutMulti none true = .ok tms ∧
      ∀ tm ∈ tms, ∀ nd ∈ tm.Nodes,
        ((nd.Level = "Session" ∨ nd.Level = "Subject") →
          nd.Model.ModelType = "meta") ∧
        (nd.Level = "Dataset" → nd.Model.ModelType = "glm")) :=
  ⟨by decide, C7_model_types egLayoutMulti none (by decide)⟩

/-- C1: With one-vs-rest enabled and more than one discovered trial type,
the run node emits one contrast per trial type `tt`, named
`"run_<tt>_vs_others"`, whose ConditionList is the full ordered factor
list, whose Weights are `1` at `tt`'s position and `-1/(k-1)` at every
other position, and whose Weights sum to zero. -/
theorem C1_one_vs_rest_run_contrasts (layout : Layout) (sl : Option Nat)
    (task : String) (evs : List String)
    (hevs : collectEvs (layout.load_vars task sl) = .ok evs)
    (hk : 1 < (npUnique evs).length) :
    ∃ tm, build_task_model layout sl true task = .ok tm ∧
      ∃ rest, tm.Nodes = build_run_node true (npUnique evs) :: rest ∧
        (build_run_node true (npUnique evs)).Contrasts =
          some ((npUnique evs).map (run_contrast (npUnique evs))) ∧
        ∀ tt ∈ npUnique evs,
          (run_contrast (npUnique evs) tt).Name = "run_" ++ tt ++ "_vs_others" ∧
          (run_contrast (npUnique evs) tt).ConditionList
            = (npUnique evs).map (fun t => "trial_type." ++ t) ∧
          (run_contrast (npUnique evs) tt).Weights
            = (npUnique evs).map (fun s => if s = tt then (1 : ℚ)
                else -1 / (((npUnique evs).length : ℚ) - 1)) ∧
          ((run_contrast (npUnique evs) tt).Weights).sum = 0 := by
  refine ⟨_, build_task_model_ok hevs, ?_⟩
  obtain ⟨rest, hrest⟩ := build_nodes_true_cons layout (npUnique evs)
  refine ⟨rest, hrest, rfl, ?_⟩
  intro tt htt
  have hnz : ¬ (((npUnique evs).length : ℤ) - 1 = 0) := by
    have h2 : (1 : ℤ) < ((npUnique evs).length : ℤ) := by exact_mod_cast hk
    omega
  have hq : (((npUnique evs).length : ℚ) - 1) ≠ 0 := by
    have h2 : (1 : ℚ) < (((npUnique evs).length : ℚ)) := by exact_mod_cast hk
    intro h0
    linarith
  refine ⟨?_, rfl, ?_, ?_⟩
  · show (if 1 < (npUnique evs).length then "run_" ++ tt ++ "_vs_others"
      else "run_" ++ tt) = "run_" ++ tt ++ "_vs_others"
    rw [if_pos hk]
  · show contrast_weights (npUnique evs) tt = _
    unfold contrast_weights
    rw [if_neg hnz]
  · show (contrast_weights (npUnique evs) tt).sum = 0
    unfold contrast_weights
    rw [if_neg hnz]
    rw [sum_map_ite_q _ tt _ _ (npUnique_nodup evs) htt]
    field_simp

/-- C1 witness at a concrete layout with two trial types. -/
theorem C1_one_vs_rest_run_contrasts_witness :
    collectEvs (egLayout.load_vars "rest" none) = .ok ["stop", "go", "go"] ∧
    1 < (npUnique ["stop", "go", "go"]).length ∧
    (∃ tm, build_task_model egLayout none true "rest" = .ok tm ∧
      ∃ rest, tm.Nodes
          = build_run_node true (npUnique ["stop", "go", "go"]) :: rest ∧
        (build_run_node true (npUnique ["stop", "go", "go"])).Contrasts =
          some ((npUnique ["stop", "go", "go"]).map
            (run_contrast (npUnique ["stop", "go", "go"]))) ∧
        ∀ tt ∈ npUnique ["stop", "go", "go"],
          (run_contrast (npUnique ["stop", "go", "go"]) tt).Name
            = "run_" ++ tt ++ "_vs_others" ∧
          (run_contrast (npUnique ["stop", "go", "go"]) tt).ConditionList
            = (npUnique ["stop", "go", "go"]).map (fun t => "trial_type." ++ t) ∧
          (run_contrast (npUnique ["stop", "go", "go"]) tt).Weights
            = (npUnique ["stop", "go", "go"]).map (fun s => if s = tt then (1 : ℚ)
                else -1 / (((npUnique ["stop", "go", "go"]).length : ℚ) - 1)) ∧
          ((run_contrast (npUnique ["stop", "go", "go"]) tt).Weights).sum = 0) :=
  ⟨rfl, by decide,
    C1_one_vs_rest_run_contrasts egLayout none "rest" ["stop", "go", "go"]
      rfl (by decide)⟩

theorem map_Level_build_nodes (layout : Layout) (tts : List String) :
    (build_nodes layout true tts).map ModelNode.Level =
      ["Run"] ++ (if 1 < layout.sessions.length then ["Session"] else [])
        ++ (if 1 < layout.subjects.length then ["Subject"] else [])
        ++ ["Dataset"] := by
  rw [build_nodes_true_eq, List.map_append, map_Level_append_subject,
    map_Level_append_session]
  simp [run_node_Level, passthrough_Level, List.append_assoc]

theorem dataset_last_of_build_nodes (layout : Layout) (tts : List String) :
    ∃ ds, (build_nodes layout true tts).getLast? = some ds ∧
      ds.Level = "Dataset" ∧
      ds.Model.X = contrastNames (build_nodes layout true tts).dropLast ∧
      ds.Contrasts = some
        ((contrastNames (build_nodes layout true tts).dropLast).map (fun cn =>
          { Name := "dataset_" ++ cn, ConditionList := [cn],
            Weights := [1], Test := "t" })) := by
  rw [build_nodes_true_eq]
  refine ⟨_, List.getLast?_concat _, rfl, ?_, ?_⟩
  · rw [List.dropLast_concat]
    rfl
  · rw [List.dropLast_concat, passthrough_Contrasts]
    simp only [show strToLower "Dataset" ++ "_" = "dataset_" from rfl]

/-- C2: With one-vs-rest enabled, after the run node a Session node is
appended exactly when there is more than one session, a Subject node
exactly when there is more than one subject (both checks are
independent), and a final Dataset node is always appended, whose
inherited contrast names come from the immediately preceding node. -/
theorem C2_node_chain (layout : Layout) (sl : Option Nat) (task : String)
    (evs : List String)
    (hevs : collectEvs (layout.load_vars task sl) = .ok evs) :
    ∃ tm, build_task_model layout sl true task = .ok tm ∧
      tm.Nodes.map ModelNode.Level =
        ["Run"] ++ (if 1 < layout.sessions.length then ["Session"] else [])
          ++ (if 1 < layout.subjects.length then ["Subject"] else [])
          ++ ["Dataset"] ∧
      ∃ ds, tm.Nodes.getLast? = some ds ∧
        ds.Level = "Dataset" ∧
        ds.Model.X = contrastNames tm.Nodes.dropLast ∧
        ds.Contrasts = some ((contrastNames tm.Nodes.dropLast).map (fun cn =>
          { Name := "dataset_" ++ cn, ConditionList := [cn],
            Weights := [1], Test := "t" })) := by
  refine ⟨_, build_task_model_ok hevs, ?_, ?_⟩
  · exact map_Level_build_nodes layout (npUnique evs)
  · exact dataset_last_of_build_nodes layout (npUnique evs)

/-- C2 witness at a concrete layout with two sessions and two subjects. -/
theorem C2_node_chain_witness :
    collectEvs (egLayoutMulti.load_vars "rest" none) = .ok ["stop", "go", "go"] ∧
    (∃ tm, build_task_model egLayoutMulti none true "rest" = .ok tm ∧
      tm.Nodes.map ModelNode.Level =
        ["Run"] ++ (if 1 < egLayoutMulti.sessions.length then ["Session"] else [])
          ++ (if 1 < egLayoutMulti.subjects.length then ["Subject"] else [])
          ++ ["Dataset"] ∧
      ∃ ds, tm.Nodes.getLast? = some ds ∧
        ds.Level = "Dataset" ∧
        ds.Model.X = contrastNames tm.Nodes.dropLast ∧
        ds.Contrasts = some ((contrastNames tm.Nodes.dropLast).map (fun cn =>
          { Name := "dataset_" ++ cn, ConditionList := [cn],
            Weights := [1], Test := "t" }))) :=
  ⟨rfl, C2_node_chain egLayoutMulti none "rest" ["stop", "go", "go"] rfl⟩

/-- C3: With exactly one discovered trial type, the division by zero in
the weight computation is caught locally and the model is still returned:
the single contrast keeps its initialised Weights `[1]` and its Name is
`"run_<tt>"` with no `"_vs_others"` suffix. -/
theorem C3_single_trial_type (layout : Layout) (sl : Option Nat)
    (task : String) (evs : List String) (tt : String)
    (hevs : collectEvs (layout.load_vars task sl) = .ok evs)
    (h1 : npUnique evs = [tt]) :
    ∃ tm, build_task_model layout sl true task = .ok tm ∧
      ∃ rest, tm.Nodes = build_run_node true (npUnique evs) :: rest ∧
        (build_run_node true (npUnique evs)).Contrasts =
          some [{ Name := "run_" ++ tt,
                  ConditionList := ["trial_type." ++ tt],
                  Weights := [1], Test := "t" }] := by
  refine ⟨_, build_task_model_ok hevs, ?_⟩
  obtain ⟨rest, hrest⟩ := build_nodes_true_cons layout (npUnique evs)
  refine ⟨rest, hrest, ?_⟩
  rw [run_node_Contrasts_true, h1]
  simp only [run_contrasts, run_contrast, contrast_weights, trial_type_factors,
    List.map_cons, List.map_nil, List.length_cons, List.length_nil]
  norm_num

/-- C3 witness at a concrete layout with a single trial type. -/
theorem C3_single_trial_type_witness :
    collectEvs ((Layout.mk "ds" ["rest"] ["01"] ["01"]
        (fun _ _ => [{ vars := [("trial_type", ["go", "go"]) ] }])).load_vars
        "rest" none) = .ok ["go", "go"] ∧
    npUnique ["go", "go"] = ["go"] ∧
    (∃ tm, build_task_model (Layout.mk "ds" ["rest"] ["01"] ["01"]
        (fun _ _ => [{ vars := [("trial_type", ["go", "go"]) ] }])) none true "rest"
        = .ok tm ∧
      ∃ rest, tm.Nodes
          = build_run_node true (npUnique ["go", "go"]) :: rest ∧
        (build_run_node true (npUnique ["go", "go"])).Contrasts =
          some [{ Name := "run_" ++ "go",
                  ConditionList := ["trial_type." ++ "go"],
                  Weights := [1], Test := "t" }]) :=
  ⟨rfl, rfl,
    C3_single_trial_type (Layout.mk "ds" ["rest"] ["01"] ["01"]
      (fun _ _ => [{ vars := [("trial_type", ["go", "go"]) ] }]))
      none "rest" ["go", "go"] "go" rfl rfl⟩

/-- C4: The trial-type labels gathered from all run nodes are
deduplicated and sorted; the run node's Model.X, its HRF Variables and
the factor list are all `"trial_type.<label>"` over that sorted sequence. -/
theorem C4_sorted_dedup_factors (layout : Layout) (sl : Option Nat)
    (ovr : Bool) (task : String) (evs : List String)
    (hevs : collectEvs (layout.load_vars task sl) = .ok evs) :
    ∃ tm, build_task_model layout sl ovr task = .ok tm ∧
      (npUnique evs).Sorted (· < ·) ∧
      (npUnique evs).Nodup ∧
      (∀ b, b ∈ npUnique evs ↔ b ∈ evs) ∧
      ∃ rest, tm.Nodes = build_run_node ovr (npUnique evs) :: rest ∧
        (build_run_node ovr (npUnique evs)).Model.X
          = (npUnique evs).map (fun tt => "trial_type." ++ tt) ∧
        (build_run_node ovr (npUnique evs)).Model.HRF = some
          { Variables := (npUnique evs).map (fun tt => "trial_type." ++ tt),
            Model := "DoubleGamma",
            Parameters := hrfParameters } := by
  refine ⟨_, build_task_model_ok hevs, npUnique_sorted evs, npUnique_nodup evs,
    fun b => mem_npUnique, ?_⟩
  obtain ⟨rest, hrest⟩ := build_nodes_cons layout ovr (npUnique evs)
  exact ⟨rest, hrest, rfl, rfl⟩

/-- C4 witness at a concrete layout. -/
theorem C4_sorted_dedup_factors_witness :
    collectEvs (egLayout.load_vars "rest" none) = .ok ["stop", "go", "go"] ∧
    (∃ tm, build_task_model egLayout none true "rest" = .ok tm ∧
      (npUnique ["stop", "go", "go"]).Sorted (· < ·) ∧
      (npUnique ["stop", "go", "go"]).Nodup ∧
      (∀ b, b ∈ npUnique ["stop", "go", "go"] ↔ b ∈ ["stop", "go", "go"]) ∧
      ∃ rest, tm.Nodes
          = build_run_node true (npUnique ["stop", "go", "go"]) :: rest ∧
        (build_run_node true (npUnique ["stop", "go", "go"])).Model.X
          = (npUnique ["stop", "go", "go"]).map (fun tt => "trial_type." ++ tt) ∧
        (build_run_node true (npUnique ["stop", "go", "go"])).Model.HRF = some
          { Variables := (npUnique ["stop", "go", "go"]).map
              (fun tt => "trial_type." ++ tt),
            Model := "DoubleGamma",
            Parameters := hrfParameters }) :=
  ⟨rfl, C4_sorted_dedup_factors egLayout none true "rest" ["stop", "go", "go"] rfl⟩

/-- C10: With one-vs-rest enabled and zero discovered trial types, the
run node still carries a (empty) Contrasts list and the final Dataset
node is still appended, with empty Model.X and an empty Contrasts list. -/
theorem C10_zero_trial_types (layout : Layout) (sl : Option Nat)
    (task : String) (evs : List String)
    (hevs : collectEvs (layout.load_vars task sl) = .ok evs)
    (hz : npUnique evs = []) :
    ∃ tm, build_task_model layout sl true task = .ok tm ∧
      (∃ rest, tm.Nodes = build_run_node true (npUnique evs) :: rest ∧
        (build_run_node true (npUnique evs)).Contrasts = some []) ∧
      ∃ ds, tm.Nodes.getLast? = some ds ∧ ds.Level = "Dataset" ∧
        ds.Model.X = [] ∧ ds.Contrasts = some [] := by
  have hruncon : (build_run_node true (npUnique evs)).Contrasts = some [] := by
    rw [run_node_Contrasts_true, hz]
    rfl
  have hnames0 : contrastNames [build_run_node true (npUnique evs)] = [] := by
    simp [contrastNames, hruncon]
  have hns : contrastNames (append_subject layout
      (append_session layout [build_run_node true (npUnique evs)])) = [] :=
    contrastNames_append_subject_empty _ _
      (contrastNames_append_session_empty _ _ hnames0)
  refine ⟨_, build_task_model_ok hevs, ?_, ?_⟩
  · obtain ⟨rest, hrest⟩ := build_nodes_true_cons layout (npUnique evs)
    exact ⟨rest, hrest, hruncon⟩
  · show ∃ ds, (build_nodes layout true (npUnique evs)).getLast? = some ds ∧
      ds.Level = "Dataset" ∧ ds.Model.X = [] ∧ ds.Contrasts = some []
    rw [build_nodes_true_eq]
    refine ⟨_, List.getLast?_concat _, rfl, ?_, ?_⟩
    · rw [passthrough_X, hns]
    · rw [passthrough_Contrasts, hns]
      rfl

/-- C10 witness at a concrete layout whose run has no events. -/
theorem C10_zero_trial_types_witness :
    collectEvs (egLayoutEmptyEvents.load_vars "rest" none) = .ok [] ∧
    npUnique ([] : List String) = [] ∧
    (∃ tm, build_task_model egLayoutEmptyEvents none true "rest" = .ok tm ∧
      (∃ rest, tm.Nodes = build_run_node true (npUnique []) :: rest ∧
        (build_run_node true (npUnique [])).Contrasts = some []) ∧
      ∃ ds, tm.Nodes.getLast? = some ds ∧ ds.Level = "Dataset" ∧
        ds.Model.X = [] ∧ ds.Contrasts = some []) :=
  ⟨rfl, rfl, C10_zero_trial_types egLayoutEmptyEvents none "rest" [] rfl rfl⟩

/-- C9 counterexample: at a concrete layout whose only run node has no
`trial_type` variable, `auto_model` raises the `KeyError` from the
unguarded dict subscript in this module's event-collection loop, instead
of letting the run contribute nothing. -/
theorem C9_counterexample :
    lookupVar { vars := [] } "trial_type" = none ∧
    auto_model egLayoutMissing none true = .error "KeyError: trial_type" :=
  ⟨rfl, rfl⟩

/-- C9 (amended): a run node that contributes no `trial_type` variable
makes the whole `auto_model` call fail with the propagated `KeyError`
raised by the dict subscript in the event-collection loop; the run is not
skipped. -/
theorem C9_missing_trial_type_raises (layout : Layout) (sl : Option Nat)
    (ovr : Bool) (task : String) (htask : task ∈ layout.tasks)
    (hmiss : ∃ n ∈ layout.load_vars task sl, lookupVar n "trial_type" = none) :
    ∃ e, auto_model layout sl ovr = .error e := by
  have hc := collectEvs_error_of_missing _ hmiss
  have hb : build_task_model layout sl ovr task
      = .error "KeyError: trial_type" := build_task_model_error hc
  apply mapExcept_error_of_mem _ layout.tasks task htask
  intro y hy
  rw [hb] at hy
  exact Except.noConfusion hy

/-- C9 (amended) witness at a concrete layout. -/
theorem C9_missing_trial_type_raises_witness :
    ("rest" ∈ egLayoutMissing.tasks) ∧
    (∃ n ∈ egLayoutMissing.load_vars "rest" none,
      lookupVar n "trial_type" = none) ∧
    ∃ e, auto_model egLayoutMissing none true = .error e :=
  ⟨by simp [egLayoutMissing], ⟨{ vars := [] }, by simp [egLayoutMissing], rfl⟩,
    C9_missing_trial_type_raises egLayoutMissing none true "rest"
      (by simp [egLayoutMissing])
      ⟨{ vars := [] }, by simp [egLayoutMissing], rfl⟩⟩
